import Mathlib

/-!
Shallow embedding of the taby instance controller
(`taby_controller.py`, class `TabyController`).

The controller is single-threaded; every mutating operation is a plain
function from a controller state to a controller state.  Interaction with
the operating system (probing whether a TCP port is free, spawning the
external pipeline process, signalling a pid) is captured by an `Env`
record of oracles supplied to each call, so that one Lean function models
one Python method for every possible outcome of its OS calls.

Python `int` settings are modelled as `Nat`: ports, increments and the
concurrency bound are non-negative configuration values.
-/

namespace Taby

/-- Configuration snapshot held in `self.settings` (the fields the
admission logic reads; script path, log dir and codec parameters have no
effect on controller state). -/
structure Settings where
  rtsp_base_port : Nat
  http_base_port : Nat
  port_increment : Nat
  max_concurrent : Nat
deriving DecidableEq

/-- One row of the `queue` table / one element of `self.queue`. -/
structure QueueItem where
  id : Nat
  url : String
deriving DecidableEq

/-- One row of the `instances` table / one element of `self.instances`. -/
structure Instance where
  id : Nat
  url : String
  rtsp_port : Nat
  http_port : Nat
  sink_name : String
  source_name : String
  pid : Nat
deriving DecidableEq

/-- The durable sqlite store: the `queue` and `instances` tables. -/
structure DB where
  queue : List QueueItem
  instances : List Instance
deriving DecidableEq

/-- The in-memory controller state plus its durable mirror. -/
structure State where
  settings : Settings
  queue : List QueueItem
  instances : List Instance
  next_instance_id : Nat
  db : DB
deriving DecidableEq

/-- Oracles for the OS-dependent calls made during one operation:
`portFree p` is the outcome of `check_port_availability(p)`; `spawnOk`
says whether `subprocess.Popen` succeeds, `spawnPid` is the resulting
pid; `killErr pid` says whether `os.kill(pid, SIGTERM)` raises a generic
exception (not `ProcessLookupError`); `alive pid` is the outcome of the
`os.kill(pid, 0)` liveness probe (`False` means `ProcessLookupError`). -/
structure Env where
  portFree : Nat → Bool
  spawnOk : Bool
  spawnPid : Nat
  killErr : Nat → Bool
  alive : Nat → Bool

/-- Python's `str.startswith(pre)`: the characters of `pre` are a prefix
of the characters of `s`. -/
def startswith (s pre : String) : Bool := pre.data.isPrefixOf s.data

/-- The spec's port allocator: `ports(instanceId, settings)`. -/
def ports (st : Settings) (instance_id : Nat) : Nat × Nat :=
  (st.rtsp_base_port + instance_id * st.port_increment,
   st.http_base_port + instance_id * st.port_increment)

/-- `add_to_queue`: reject a url whose scheme prefix is wrong, otherwise
insert into the `queue` table (sqlite assigns `max(rowid)+1`) and append
to the in-memory queue. -/
def add_to_queue (s : State) (url : String) : Bool × State :=
  if !(startswith url "http://" || startswith url "https://") then
    (false, s)
  else
    let queue_id := (s.db.queue.map QueueItem.id).foldr max 0 + 1
    let item : QueueItem := ⟨queue_id, url⟩
    (true,
      { s with
        db := { s.db with queue := s.db.queue ++ [item] },
        queue := s.queue ++ [item] })

/-- `remove_from_queue`: delete the row and drop the in-memory item. -/
def remove_from_queue (s : State) (queue_id : Nat) : State :=
  { s with
    db := { s.db with queue := s.db.queue.filter (fun item => item.id != queue_id) },
    queue := s.queue.filter (fun item => item.id != queue_id) }

/-- `start_taby`: compute both ports from the instance id, fail (with no
state change) if either port probe finds the port in use or the spawn
raises, otherwise record the new instance in the `instances` table and
in memory.  The title lookup and PulseAudio renaming touch no controller
state and every exception they raise is caught, so they are omitted. -/
def start_taby (env : Env) (s : State) (url : String) (instance_id : Nat) :
    Bool × State :=
  let rtsp_port := s.settings.rtsp_base_port + instance_id * s.settings.port_increment
  let http_port := s.settings.http_base_port + instance_id * s.settings.port_increment
  if !env.portFree rtsp_port then (false, s)
  else if !env.portFree http_port then (false, s)
  else if !env.spawnOk then (false, s)
  else
    let inst : Instance :=
      { id := instance_id, url := url, rtsp_port := rtsp_port, http_port := http_port,
        sink_name := "ts_sink_" ++ toString instance_id,
        source_name := "TS_Bot_" ++ toString instance_id,
        pid := env.spawnPid }
    (true,
      { s with
        db := { s.db with instances := s.db.instances ++ [inst] },
        instances := s.instances ++ [inst] })

/-- Outcome of `stop_instance`, distinguished in the source by its
printed message and return value. -/
inductive StopResult where
  | notFound
  | killError
  | stopped
deriving DecidableEq

/-- `stop_instance`: look the id up in memory; `NotFound` if absent; a
generic `os.kill` exception aborts with no state change; otherwise
(including `ProcessLookupError`) delete the row and the in-memory
record. -/
def stop_instance (env : Env) (s : State) (instance_id : Nat) :
    StopResult × State :=
  match s.instances.find? (fun i => i.id == instance_id) with
  | none => (.notFound, s)
  | some inst =>
    if env.killErr inst.pid then (.killError, s)
    else
      (.stopped,
        { s with
          db := { s.db with instances := s.db.instances.filter (fun i => i.id != instance_id) },
          instances := s.instances.filter (fun i => i.id != instance_id) })

/-- Body of the `for instance in list(self.instances)` loop of
`clean_instances`: the first argument is the snapshot being iterated,
the state is mutated as the loop runs. -/
def clean_aux (env : Env) (s : State) : List Instance → State
  | [] => s
  | inst :: rest =>
    if env.alive inst.pid then clean_aux env s rest
    else
      clean_aux env
        { s with
          db := { s.db with instances := s.db.instances.filter (fun i => i.id != inst.id) },
          instances := s.instances.filter (fun i => i.id != inst.id) }
        rest

/-- `clean_instances`: reconciliation sweep over a snapshot of the
in-memory instance list. -/
def clean_instances (env : Env) (s : State) : State :=
  clean_aux env s s.instances

/-- Outcome of `start_next`, distinguished in the source by its printed
message and return value. -/
inductive StartResult where
  | queueEmpty
  | capacityFull
  | spawnFailed
  | started
deriving DecidableEq

/-- `start_next`: empty queue and reached capacity are non-error early
returns; otherwise attempt the queue head with the current
`next_instance_id`, and only on confirmed success advance the id and
remove the head from the queue. -/
def start_next (env : Env) (s : State) : StartResult × State :=
  match s.queue with
  | [] => (.queueEmpty, s)
  | next_item :: _ =>
    if s.settings.max_concurrent ≤ s.instances.length then (.capacityFull, s)
    else
      match start_taby env s next_item.url s.next_instance_id with
      | (true, s1) =>
        let s2 := { s1 with next_instance_id := s1.next_instance_id + 1 }
        (.started, remove_from_queue s2 next_item.id)
      | (false, s1) => (.spawnFailed, s1)

/-- `load_queue`: read the queue table ordered by id (the table is kept
in insertion order). -/
def load_queue (db : DB) : List QueueItem := db.queue

/-- `load_instances`: read the instances table. -/
def load_instances (db : DB) : List Instance := db.instances

/-- Line 24 of `__init__`: `max([i["id"] for i in self.instances], default=0) + 1`. -/
def initNextInstanceId (instances : List Instance) : Nat :=
  (instances.map Instance.id).foldr max 0 + 1

/-- `__init__` after argument parsing: load the queue, enqueue the
`--url` arguments, load the instances, derive `next_instance_id`, then
run one reconciliation sweep. -/
def initController (st : Settings) (env : Env) (db : DB) (urls : List String) : State :=
  let s0 : State :=
    { settings := st, queue := load_queue db, instances := [],
      next_instance_id := 0, db := db }
  let s1 := urls.foldl (fun s u => (add_to_queue s u).2) s0
  let s2 := { s1 with instances := load_instances s1.db }
  let s3 := { s2 with next_instance_id := initNextInstanceId s2.instances }
  clean_instances env s3

/-- The empty controller state: fresh database, nothing queued, no
instances, `next_instance_id = 1`. -/
def initState (st : Settings) : State :=
  { settings := st, queue := [], instances := [], next_instance_id := 1,
    db := { queue := [], instances := [] } }

/-- One controller command together with the OS behaviour observed
during it. -/
inductive Op where
  | enqueue (url : String)
  | startNext (env : Env)
  | stop (env : Env) (instance_id : Nat)
  | clean (env : Env)

/-- Effect of one command on the controller state. -/
def step (s : State) : Op → State
  | .enqueue url => (add_to_queue s url).2
  | .startNext env => (start_next env s).2
  | .stop env instance_id => (stop_instance env s instance_id).2
  | .clean env => clean_instances env s

/-- Run a command sequence from the empty controller state. -/
def run (st : Settings) (ops : List Op) : State :=
  ops.foldl step (initState st)

/-- Instance ids handed out by successful admissions along a run, in
order of assignment. -/
def assignedIds (s : State) : List Op → List Nat
  | [] => []
  | op :: ops =>
    match op with
    | .startNext env =>
      match start_next env s with
      | (.started, s2) => s.next_instance_id :: assignedIds s2 ops
      | (_, s2) => assignedIds s2 ops
    | _ => assignedIds (step s op) ops

/-- Sample environment in which every OS interaction succeeds. -/
def envOk : Env :=
  { portFree := fun _ => true, spawnOk := true, spawnPid := 1000,
    killErr := fun _ => false, alive := fun _ => true }

/-- Sample environment in which every port probe reports the port as
already in use. -/
def envPortBusy : Env :=
  { portFree := fun _ => false, spawnOk := true, spawnPid := 1000,
    killErr := fun _ => false, alive := fun _ => true }

/-- The default settings of the argument parser. -/
def st0 : Settings := ⟨8554, 8080, 10, 5⟩

/-- Default settings with `--max-concurrent 1`. -/
def stMaxOne : Settings := ⟨8554, 8080, 10, 1⟩

/-- Default settings with `--port-increment 0`. -/
def stZeroInc : Settings := ⟨8554, 8080, 0, 5⟩

/-- A state with one queued url and no instances. -/
def sOneQueued : State := run st0 [.enqueue "http://a"]

/-- A state with one live instance and an empty queue. -/
def sOneLive : State := run st0 [.enqueue "http://a", .startNext envOk]

/-- A state at capacity (`max_concurrent = 1`, one live instance) whose
queue is empty. -/
def sAtCapacity : State := run stMaxOne [.enqueue "http://a", .startNext envOk]

/-- With `port_increment = 0`, two admissions in an environment whose
port probes report both ports free. -/
def sDupPorts : State :=
  run stZeroInc [.enqueue "http://a", .enqueue "http://b", .startNext envOk, .startNext envOk]

/-- The one instance of `sOneLive`. -/
def instOne : Instance := ⟨1, "http://a", 8564, 8090, "ts_sink_1", "TS_Bot_1", 1000⟩

/-- The instance record built by a successful `start_taby` call. -/
def mkInstance (env : Env) (s : State) (url : String) (instance_id : Nat) : Instance :=
  { id := instance_id, url := url,
    rtsp_port := s.settings.rtsp_base_port + instance_id * s.settings.port_increment,
    http_port := s.settings.http_base_port + instance_id * s.settings.port_increment,
    sink_name := "ts_sink_" ++ toString instance_id,
    source_name := "TS_Bot_" ++ toString instance_id,
    pid := env.spawnPid }

/-- Structural invariants of reachable controller states: instance ids
are distinct and below the id counter, store and memory agree, every
recorded port pair comes from the port formula, and queue ids are
distinct. -/
def Inv (s : State) : Prop :=
  (s.instances.map Instance.id).Nodup ∧
  (∀ i ∈ s.instances, i.id < s.next_instance_id) ∧
  s.db.instances = s.instances ∧
  s.db.queue = s.queue ∧
  (∀ i ∈ s.instances,
    i.rtsp_port = s.settings.rtsp_base_port + i.id * s.settings.port_increment ∧
    i.http_port = s.settings.http_base_port + i.id * s.settings.port_increment) ∧
  (s.queue.map QueueItem.id).Nodup

lemma le_foldr_max {l : List Nat} {x : Nat} (hx : x ∈ l) : x ≤ l.foldr max 0 := by
  induction l with
  | nil => cases hx
  | cons a t ih =>
    rw [List.foldr_cons]
    rcases List.mem_cons.mp hx with rfl | h
    · exact Nat.le_max_left _ _
    · exact Nat.le_trans (ih h) (Nat.le_max_right _ _)

/-- `add_to_queue` either rejects with no state change or appends the
fresh item to both the store and the in-memory queue. -/
lemma add_to_queue_cases (s : State) (url : String) :
    (add_to_queue s url).2 = s ∨
    (add_to_queue s url).2 =
      { s with
        db := { s.db with queue := s.db.queue ++
          [⟨(s.db.queue.map QueueItem.id).foldr max 0 + 1, url⟩] },
        queue := s.queue ++ [⟨(s.db.queue.map QueueItem.id).foldr max 0 + 1, url⟩] } := by
  unfold add_to_queue
  split
  · exact Or.inl rfl
  · exact Or.inr rfl

/-- `start_taby` either fails with no state change or succeeds and
appends the new instance record to both the store and memory. -/
lemma start_taby_cases (env : Env) (s : State) (url : String) (instance_id : Nat) :
    start_taby env s url instance_id = (false, s) ∨
    start_taby env s url instance_id =
      (true,
        { s with
          db := { s.db with instances := s.db.instances ++ [mkInstance env s url instance_id] },
          instances := s.instances ++ [mkInstance env s url instance_id] }) := by
  simp only [start_taby]
  split_ifs with h1 h2 h3
  · exact Or.inl rfl
  · exact Or.inl rfl
  · exact Or.inl rfl
  · exact Or.inr (by simp [mkInstance])

/-- `stop_instance` either aborts with no state change or deletes the
requested id from both the store and memory. -/
lemma stop_instance_cases (env : Env) (s : State) (instance_id : Nat) :
    (stop_instance env s instance_id).2 = s ∨
    (stop_instance env s instance_id).2 =
      { s with
        db := { s.db with
          instances := s.db.instances.filter (fun i => i.id != instance_id) },
        instances := s.instances.filter (fun i => i.id != instance_id) } := by
  unfold stop_instance
  split
  · exact Or.inl rfl
  · split
    · exact Or.inl rfl
    · exact Or.inr rfl

/-- Running the reconciliation loop never touches the queue, the queue
table, the id counter or the settings. -/
lemma clean_aux_frame (env : Env) (L : List Instance) (s : State) :
    (clean_aux env s L).queue = s.queue ∧
    (clean_aux env s L).db.queue = s.db.queue ∧
    (clean_aux env s L).next_instance_id = s.next_instance_id ∧
    (clean_aux env s L).settings = s.settings := by
  induction L generalizing s with
  | nil => exact ⟨rfl, rfl, rfl, rfl⟩
  | cons j rest ih =>
    unfold clean_aux
    split
    · exact ih s
    · exact ih _

/-- Effect of the reconciliation loop on the in-memory instance list:
an instance survives exactly when no dead snapshot entry shares its id. -/
lemma clean_aux_instances (env : Env) (L : List Instance) (s : State) :
    (clean_aux env s L).instances
      = s.instances.filter (fun i => L.all (fun j => env.alive j.pid || i.id != j.id)) := by
  induction L generalizing s with
  | nil => simp [clean_aux]
  | cons j rest ih =>
    unfold clean_aux
    split
    · rw [ih]
      refine List.filter_congr (fun i _ => ?_)
      simp_all
    · rw [ih]
      simp only [List.filter_filter]
      refine List.filter_congr (fun i _ => ?_)
      simp_all [Bool.and_comm]

/-- Effect of the reconciliation loop on the instances table, mirroring
`clean_aux_instances`. -/
lemma clean_aux_db_instances (env : Env) (L : List Instance) (s : State) :
    (clean_aux env s L).db.instances
      = s.db.instances.filter (fun i => L.all (fun j => env.alive j.pid || i.id != j.id)) := by
  induction L generalizing s with
  | nil => simp [clean_aux]
  | cons j rest ih =>
    unfold clean_aux
    split
    · rw [ih]
      refine List.filter_congr (fun i _ => ?_)
      simp_all
    · rw [ih]
      simp only [List.filter_filter]
      refine List.filter_congr (fun i _ => ?_)
      simp_all [Bool.and_comm]

/-- Full case analysis of `start_next`: either it makes no state change
and reports something other than `started`, or it admits the queue head,
appending one instance, advancing the id and deleting the head item. -/
lemma start_next_cases (env : Env) (s : State) :
    ((start_next env s).1 ≠ .started ∧ (start_next env s).2 = s) ∨
    ((start_next env s).1 = .started ∧ ∃ item rest, s.queue = item :: rest ∧
      s.instances.length < s.settings.max_concurrent ∧
      (start_next env s).2 =
        { settings := s.settings,
          queue := s.queue.filter (fun q => q.id != item.id),
          instances := s.instances ++ [mkInstance env s item.url s.next_instance_id],
          next_instance_id := s.next_instance_id + 1,
          db := { queue := s.db.queue.filter (fun q => q.id != item.id),
                  instances := s.db.instances ++ [mkInstance env s item.url s.next_instance_id] } }) := by
  cases hq : s.queue with
  | nil => exact Or.inl (by simp [start_next, hq])
  | cons item rest =>
    by_cases hc : s.settings.max_concurrent ≤ s.instances.length
    · exact Or.inl (by simp [start_next, hq, hc])
    · rcases start_taby_cases env s item.url s.next_instance_id with hst | hst
      · exact Or.inl (by simp [start_next, hq, hc, hst])
      · refine Or.inr ⟨by simp [start_next, hq, hc, hst], item, rest, rfl,
          Nat.lt_of_not_le hc, ?_⟩
        simp [start_next, hq, hc, hst, remove_from_queue]

lemma inv_initState (st : Settings) : Inv (initState st) := by
  refine ⟨?_, ?_, rfl, rfl, ?_, ?_⟩ <;> simp [initState]

lemma inv_step (s : State) (op : Op) (h : Inv s) : Inv (step s op) := by
  obtain ⟨hnd, hlt, hsi, hsq, hp, hnq⟩ := h
  cases op with
  | enqueue url =>
    show Inv (add_to_queue s url).2
    rcases add_to_queue_cases s url with he | he <;> rw [he]
    · exact ⟨hnd, hlt, hsi, hsq, hp, hnq⟩
    · refine ⟨hnd, hlt, hsi, by simp [hsq], hp, ?_⟩
      rw [hsq]
      simp only [List.map_append, List.map_cons, List.map_nil, List.nodup_append]
      refine ⟨hnq, List.nodup_singleton _, ?_⟩
      intro x hx hx1
      rcases List.mem_singleton.mp hx1 with rfl
      exact absurd (le_foldr_max hx) (by omega)
  | startNext env =>
    show Inv (start_next env s).2
    rcases start_next_cases env s with ⟨_, he⟩ | ⟨_, item, rest, hq, hc, he⟩ <;> rw [he]
    · exact ⟨hnd, hlt, hsi, hsq, hp, hnq⟩
    · refine ⟨?_, ?_, by rw [hsi], by rw [hsq], ?_, ?_⟩
      · simp only [List.map_append, List.map_cons, List.map_nil, List.nodup_append]
        refine ⟨hnd, List.nodup_singleton _, ?_⟩
        intro x hx hx1
        rcases List.mem_singleton.mp hx1 with rfl
        rcases List.mem_map.mp hx with ⟨i, hi, hix⟩
        exact absurd (hix ▸ hlt i hi) (by simp [mkInstance])
      · intro i hi
        rcases List.mem_append.mp hi with hi | hi
        · exact Nat.lt_succ_of_lt (hlt i hi)
        · rcases List.mem_singleton.mp hi with rfl
          simp [mkInstance]
      · intro i hi
        rcases List.mem_append.mp hi with hi | hi
        · exact hp i hi
        · rcases List.mem_singleton.mp hi with rfl
          simp [mkInstance]
      · exact ((List.filter_sublist _).map _).nodup hnq
  | stop env instance_id =>
    show Inv (stop_instance env s instance_id).2
    rcases stop_instance_cases env s instance_id with he | he <;> rw [he]
    · exact ⟨hnd, hlt, hsi, hsq, hp, hnq⟩
    · refine ⟨((List.filter_sublist _).map _).nodup hnd, ?_, by rw [hsi], hsq, ?_, hnq⟩
      · exact fun i hi => hlt i (List.mem_of_mem_filter hi)
      · exact fun i hi => hp i (List.mem_of_mem_filter hi)
  | clean env =>
    show Inv (clean_instances env s)
    unfold clean_instances
    obtain ⟨hfq, hfdq, hfn, hfs⟩ := clean_aux_frame env s.instances s
    rw [Inv, hfq, hfdq, hfn, hfs, clean_aux_instances, clean_aux_db_instances, hsi]
    refine ⟨((List.filter_sublist _).map _).nodup hnd, ?_, rfl, hsq, ?_, hnq⟩
    · exact fun i hi => hlt i (List.mem_of_mem_filter hi)
    · exact fun i hi => hp i (List.mem_of_mem_filter hi)

lemma step_settings (s : State) (op : Op) : (step s op).settings = s.settings := by
  cases op with
  | enqueue url =>
    show (add_to_queue s url).2.settings = s.settings
    rcases add_to_queue_cases s url with he | he <;> rw [he]
  | startNext env =>
    show (start_next env s).2.settings = s.settings
    rcases start_next_cases env s with ⟨_, he⟩ | ⟨_, _, _, _, _, he⟩ <;> rw [he]
  | stop env instance_id =>
    show (stop_instance env s instance_id).2.settings = s.settings
    rcases stop_instance_cases env s instance_id with he | he <;> rw [he]
  | clean env => exact (clean_aux_frame env s.instances s).2.2.2

lemma step_next_id_le (s : State) (op : Op) :
    s.next_instance_id ≤ (step s op).next_instance_id := by
  cases op with
  | enqueue url =>
    show _ ≤ (add_to_queue s url).2.next_instance_id
    rcases add_to_queue_cases s url with he | he <;> rw [he]
  | startNext env =>
    show _ ≤ (start_next env s).2.next_instance_id
    rcases start_next_cases env s with ⟨_, he⟩ | ⟨_, _, _, _, _, he⟩ <;> rw [he]
    exact Nat.le_succ _
  | stop env instance_id =>
    show _ ≤ (stop_instance env s instance_id).2.next_instance_id
    rcases stop_instance_cases env s instance_id with he | he <;> rw [he]
  | clean env => exact Nat.le_of_eq (clean_aux_frame env s.instances s).2.2.1.symm

lemma step_capacity (s : State) (op : Op)
    (h : s.instances.length ≤ s.settings.max_concurrent) :
    (step s op).instances.length ≤ (step s op).settings.max_concurrent := by
  rw [step_settings]
  cases op with
  | enqueue url =>
    show (add_to_queue s url).2.instances.length ≤ _
    rcases add_to_queue_cases s url with he | he <;> rw [he] <;> exact h
  | startNext env =>
    show (start_next env s).2.instances.length ≤ _
    rcases start_next_cases env s with ⟨_, he⟩ | ⟨_, _, _, _, hc, he⟩ <;> rw [he]
    · exact h
    · simpa using hc
  | stop env instance_id =>
    show (stop_instance env s instance_id).2.instances.length ≤ _
    rcases stop_instance_cases env s instance_id with he | he <;> rw [he]
    · exact h
    · exact Nat.le_trans (List.length_filter_le _ _) h
  | clean env =>
    show (clean_instances env s).instances.length ≤ _
    unfold clean_instances
    rw [clean_aux_instances]
    exact Nat.le_trans (List.length_filter_le _ _) h

lemma foldl_step_settings (ops : List Op) (s : State) :
    (ops.foldl step s).settings = s.settings := by
  induction ops generalizing s with
  | nil => rfl
  | cons op ops ih => rw [List.foldl_cons, ih, step_settings]

lemma run_settings (st : Settings) (ops : List Op) : (run st ops).settings = st :=
  foldl_step_settings ops (initState st)

lemma foldl_step_inv (ops : List Op) (s : State) (h : Inv s) : Inv (ops.foldl step s) := by
  induction ops generalizing s with
  | nil => exact h
  | cons op ops ih => exact ih _ (inv_step s op h)

lemma inv_run (st : Settings) (ops : List Op) : Inv (run st ops) :=
  foldl_step_inv ops (initState st) (inv_initState st)

lemma clean_aux_next_id (env : Env) (L : List Instance) (s : State) :
    (clean_aux env s L).next_instance_id = s.next_instance_id :=
  (clean_aux_frame env L s).2.2.1

lemma add_to_queue_db_instances (s : State) (url : String) :
    ((add_to_queue s url).2).db.instances = s.db.instances := by
  rcases add_to_queue_cases s url with he | he <;> rw [he]

lemma foldl_add_db_instances (urls : List String) (s : State) :
    (urls.foldl (fun s u => (add_to_queue s u).2) s).db.instances = s.db.instances := by
  induction urls generalizing s with
  | nil => rfl
  | cons u urls ih => rw [List.foldl_cons, ih, add_to_queue_db_instances]

/-- Shape of the state after a `stop_instance` call that reports
`stopped`. -/
lemma stop_instance_stopped (env : Env) (s : State) (instance_id : Nat)
    (h : (stop_instance env s instance_id).1 = StopResult.stopped) :
    (stop_instance env s instance_id).2 =
      { s with
        db := { s.db with
          instances := s.db.instances.filter (fun i => i.id != instance_id) },
        instances := s.instances.filter (fun i => i.id != instance_id) } := by
  rcases hf : s.instances.find? (fun i => i.id == instance_id) with _ | inst
  · simp [stop_instance, hf] at h
  · by_cases hk : env.killErr inst.pid
    · simp [stop_instance, hf, hk] at h
    · simp [stop_instance, hf, hk]

/-- With distinct instance ids, the survivor predicate computed by the
reconciliation loop coincides with plain liveness of the instance. -/
lemma filter_all_eq_filter_alive (env : Env) (l : List Instance)
    (hnd : (l.map Instance.id).Nodup) :
    l.filter (fun i => l.all (fun j => env.alive j.pid || i.id != j.id))
      = l.filter (fun i => env.alive i.pid) := by
  refine List.filter_congr (fun i hi => ?_)
  cases ha : env.alive i.pid
  · rw [Bool.eq_false_iff]
    intro hall
    rw [List.all_eq_true] at hall
    have := hall i hi
    simp [ha] at this
  · rw [List.all_eq_true]
    intro j hj
    by_cases hij : j.id = i.id
    · have hj_eq : j = i := List.inj_on_of_nodup_map hnd hj hi hij
      simp [hj_eq, ha]
    · have : (i.id != j.id) = true := by
        simp only [bne_iff_ne, ne_eq]
        exact fun hcon => hij hcon.symm
      simp [this]

lemma clean_instances_filter (env : Env) (s : State)
    (hnd : (s.instances.map Instance.id).Nodup) :
    (clean_instances env s).instances = s.instances.filter (fun i => env.alive i.pid) := by
  rw [clean_instances, clean_aux_instances]
  exact filter_all_eq_filter_alive env s.instances hnd

lemma clean_instances_db_filter (env : Env) (s : State)
    (hnd : (s.instances.map Instance.id).Nodup) (hsi : s.db.instances = s.instances) :
    (clean_instances env s).db.instances
      = s.instances.filter (fun i => env.alive i.pid) := by
  rw [clean_instances, clean_aux_db_instances, hsi]
  exact filter_all_eq_filter_alive env s.instances hnd

/-- Every id recorded by `assignedIds` is at least the id counter of the
state the trace starts from. -/
lemma assignedIds_lower (ops : List Op) (s : State) :
    ∀ x ∈ assignedIds s ops, s.next_instance_id ≤ x := by
  induction ops generalizing s with
  | nil => intro x hx; cases hx
  | cons op ops ih =>
    intro x hx
    cases op with
    | startNext env =>
      simp only [assignedIds] at hx
      rcases hsn : start_next env s with ⟨r, s2⟩
      rw [hsn] at hx
      have hle : s.next_instance_id ≤ s2.next_instance_id := by
        have h := step_next_id_le s (Op.startNext env)
        rw [show step s (Op.startNext env) = (start_next env s).2 from rfl, hsn] at h
        exact h
      cases r with
      | started =>
        rcases List.mem_cons.mp hx with rfl | hx2
        · exact Nat.le_refl _
        · exact Nat.le_trans hle (ih s2 x hx2)
      | queueEmpty => exact Nat.le_trans hle (ih s2 x hx)
      | capacityFull => exact Nat.le_trans hle (ih s2 x hx)
      | spawnFailed => exact Nat.le_trans hle (ih s2 x hx)
    | enqueue url =>
      simp only [assignedIds] at hx
      exact Nat.le_trans (step_next_id_le s (Op.enqueue url)) (ih _ x hx)
    | stop env instance_id =>
      simp only [assignedIds] at hx
      exact Nat.le_trans (step_next_id_le s (Op.stop env instance_id)) (ih _ x hx)
    | clean env =>
      simp only [assignedIds] at hx
      exact Nat.le_trans (step_next_id_le s (Op.clean env)) (ih _ x hx)

/-- Assigned instance ids are strictly increasing along any run. -/
lemma assignedIds_chain (ops : List Op) (s : State) :
    List.Chain' (· < ·) (assignedIds s ops) := by
  induction ops generalizing s with
  | nil => simp [assignedIds]
  | cons op ops ih =>
    cases op with
    | startNext env =>
      simp only [assignedIds]
      rcases hsn : start_next env s with ⟨r, s2⟩
      cases r with
      | started =>
        rcases start_next_cases env s with ⟨hna, _⟩ | ⟨_, item, rest, _, _, he⟩
        · rw [hsn] at hna; exact absurd rfl hna
        · have h2 : s2.next_instance_id = s.next_instance_id + 1 := by
            have h3 : (start_next env s).2.next_instance_id = s.next_instance_id + 1 := by
              rw [he]
            rwa [hsn] at h3
          rw [List.chain'_cons']
          refine ⟨?_, ih s2⟩
          intro y hy
          have h1 := assignedIds_lower ops s2 y (List.mem_of_mem_head? hy)
          omega
      | queueEmpty => exact ih s2
      | capacityFull => exact ih s2
      | spawnFailed => exact ih s2
    | enqueue url => simp only [assignedIds]; exact ih _
    | stop env instance_id => simp only [assignedIds]; exact ih _
    | clean env => simp only [assignedIds]; exact ih _

/-- One step keeps the queue ids strictly increasing: an accepted url is
appended with an id strictly larger than every pending id, and every
other change to the queue only removes items. -/
lemma step_queue_sorted (s : State) (op : Op) (hInv : Inv s)
    (hsort : (s.queue.map QueueItem.id).Pairwise (· < ·)) :
    ((step s op).queue.map QueueItem.id).Pairwise (· < ·) := by
  obtain ⟨-, -, -, hsq, -, -⟩ := hInv
  cases op with
  | enqueue url =>
    show ((add_to_queue s url).2.queue.map QueueItem.id).Pairwise (· < ·)
    rcases add_to_queue_cases s url with he | he <;> rw [he]
    · exact hsort
    · rw [List.map_append, List.map_cons, List.map_nil, List.pairwise_append]
      refine ⟨hsort, List.pairwise_singleton _ _, ?_⟩
      intro x hx y hy
      rcases List.mem_singleton.mp hy with rfl
      rw [hsq]
      have h1 := le_foldr_max hx
      show x < (s.queue.map QueueItem.id).foldr max 0 + 1
      omega
  | startNext env =>
    show ((start_next env s).2.queue.map QueueItem.id).Pairwise (· < ·)
    rcases start_next_cases env s with ⟨-, he⟩ | ⟨-, item, rest, -, -, he⟩ <;> rw [he]
    · exact hsort
    · exact hsort.sublist ((List.filter_sublist _).map _)
  | stop env instance_id =>
    show ((stop_instance env s instance_id).2.queue.map QueueItem.id).Pairwise (· < ·)
    rcases stop_instance_cases env s instance_id with he | he <;> rw [he] <;> exact hsort
  | clean env =>
    show ((clean_instances env s).queue.map QueueItem.id).Pairwise (· < ·)
    rw [clean_instances, (clean_aux_frame env s.instances s).1]
    exact hsort

/-- Along every run from the empty state the queue ids are strictly
increasing, so queue position order coincides with enqueue order. -/
lemma run_queue_sorted (st : Settings) (ops : List Op) :
    ((run st ops).queue.map QueueItem.id).Pairwise (· < ·) := by
  have h : ∀ (l : List Op) (s : State), Inv s →
      (s.queue.map QueueItem.id).Pairwise (· < ·) →
      ((l.foldl step s).queue.map QueueItem.id).Pairwise (· < ·) := by
    intro l
    induction l with
    | nil => exact fun s _ hs => hs
    | cons op l ih =>
      exact fun s hi hs => ih _ (inv_step s op hi) (step_queue_sorted s op hi hs)
  exact h ops (initState st) (inv_initState st) (by simp [initState])

/-- C1: for every sequence of enqueue, startNext, stop and clean
operations from the empty controller state, the number of live
instances never exceeds the configured `max_concurrent` limit. -/
theorem C1_live_count_never_exceeds_max (st : Settings) (ops : List Op) :
    (run st ops).instances.length ≤ st.max_concurrent := by
  have h : ∀ (l : List Op) (s : State),
      s.instances.length ≤ s.settings.max_concurrent →
      (l.foldl step s).instances.length ≤ (l.foldl step s).settings.max_concurrent := by
    intro l
    induction l with
    | nil => exact fun s hs => hs
    | cons op l ih => exact fun s hs => ih _ (step_capacity s op hs)
  have h2 := h ops (initState st) (Nat.zero_le _)
  calc (run st ops).instances.length
      ≤ (run st ops).settings.max_concurrent := h2
    _ = st.max_concurrent := by rw [run_settings]

/-- C2 counterexample: in a reachable state at capacity (one live
instance, `max_concurrent = 1`) whose queue is empty, `start_next`
reports "queue empty", not "capacity full", so the claim as stated
fails. -/
theorem C2_counterexample :
    sAtCapacity.settings.max_concurrent ≤ sAtCapacity.instances.length ∧
    (start_next envOk sAtCapacity).1 = StartResult.queueEmpty ∧
    (start_next envOk sAtCapacity).1 ≠ StartResult.capacityFull := by
  decide

/-- C2 (amended): whenever the queue is non-empty and the live-instance
count is at least `max_concurrent`, `start_next` returns the non-error
"capacity full" signal and changes nothing: queue, instance set,
durable store and `next_instance_id` are all left as they were.  (With
an empty queue the call instead returns the non-error "queue empty"
signal, likewise without mutating anything.) -/
theorem C2_capacity_full_no_mutation (env : Env) (s : State)
    (hne : s.queue ≠ [])
    (hcap : s.settings.max_concurrent ≤ s.instances.length) :
    start_next env s = (StartResult.capacityFull, s) := by
  cases hq : s.queue with
  | nil => exact absurd hq hne
  | cons item rest => simp [start_next, hq, hcap]

/-- C2 witness: the amended theorem applied to a concrete state with a
queued url, one live instance and `max_concurrent = 1`. -/
theorem C2_witness :
    start_next envOk (run stMaxOne
        [.enqueue "http://a", .startNext envOk, .enqueue "http://b"])
      = (StartResult.capacityFull,
         run stMaxOne [.enqueue "http://a", .startNext envOk, .enqueue "http://b"]) :=
  C2_capacity_full_no_mutation envOk _ (by decide) (by decide)

/-- C3 counterexample: with `--port-increment 0` and an environment
whose port probes report the candidate ports free (the spawned
predecessor has not bound them yet), two live instances with distinct
ids share both ports, so the unconditional claim fails. -/
theorem C3_counterexample :
    ∃ i ∈ sDupPorts.instances, ∃ j ∈ sDupPorts.instances,
      i.id ≠ j.id ∧ i.rtsp_port = j.rtsp_port ∧ i.http_port = j.http_port := by
  decide

/-- C3 (amended): every live instance carries exactly the ports
`ports(id, settings)` assigns, and provided `port_increment` is
positive, no two live instances with distinct ids share an `rtsp_port`
or an `http_port`. -/
theorem C3_port_allocation (st : Settings) (ops : List Op)
    (hinc : 0 < st.port_increment) :
    (∀ i ∈ (run st ops).instances,
      i.rtsp_port = (ports st i.id).1 ∧ i.http_port = (ports st i.id).2) ∧
    (∀ i ∈ (run st ops).instances, ∀ j ∈ (run st ops).instances,
      i.id ≠ j.id → i.rtsp_port ≠ j.rtsp_port ∧ i.http_port ≠ j.http_port) := by
  obtain ⟨-, -, -, -, hp, -⟩ := inv_run st ops
  have hs := run_settings st ops
  rw [hs] at hp
  constructor
  · exact fun i hi => hp i hi
  · intro i hi j hj hij
    obtain ⟨hir, hih⟩ := hp i hi
    obtain ⟨hjr, hjh⟩ := hp j hj
    constructor
    · rw [hir, hjr]
      intro hcon
      exact hij (Nat.eq_of_mul_eq_mul_right hinc (Nat.add_left_cancel hcon))
    · rw [hih, hjh]
      intro hcon
      exact hij (Nat.eq_of_mul_eq_mul_right hinc (Nat.add_left_cancel hcon))

/-- C3 witness: the amended theorem applied to the default settings and
a run admitting one instance. -/
theorem C3_witness :
    (∀ i ∈ (run st0 [.enqueue "http://a", .startNext envOk]).instances,
      i.rtsp_port = (ports st0 i.id).1 ∧ i.http_port = (ports st0 i.id).2) ∧
    (∀ i ∈ (run st0 [.enqueue "http://a", .startNext envOk]).instances,
      ∀ j ∈ (run st0 [.enqueue "http://a", .startNext envOk]).instances,
      i.id ≠ j.id → i.rtsp_port ≠ j.rtsp_port ∧ i.http_port ≠ j.http_port) :=
  C3_port_allocation st0 [.enqueue "http://a", .startNext envOk] (by decide)

/-- C4: at startup `next_instance_id` is `max(existing ids) + 1`, and
along any run from the empty controller state the ids assigned to
admitted instances are strictly increasing, hence an id once assigned
(even to an instance later stopped or reclaimed) is never assigned
again. -/
theorem C4_instance_ids_monotone_never_reused (st : Settings) :
    (∀ (env : Env) (db : DB) (urls : List String),
      (initController st env db urls).next_instance_id
        = (db.instances.map Instance.id).foldr max 0 + 1) ∧
    (∀ ops : List Op, List.Chain' (· < ·) (assignedIds (initState st) ops)) ∧
    (∀ ops : List Op, (assignedIds (initState st) ops).Nodup) := by
  refine ⟨?_, fun ops => assignedIds_chain ops (initState st), ?_⟩
  · intro env db urls
    show (clean_instances env _).next_instance_id = _
    rw [clean_instances, clean_aux_next_id]
    show initNextInstanceId (load_instances _) = _
    rw [initNextInstanceId, load_instances, foldl_add_db_instances]
  · intro ops
    have hpw := List.chain'_iff_pairwise.mp (assignedIds_chain ops (initState st))
    exact hpw.imp Nat.ne_of_lt

/-- C5: if admitting the queue head fails (port conflict or spawn
error), `start_next` leaves the queue exactly as it was (the head in
place), does not advance `next_instance_id`, and in fact changes no
component of the state. -/
theorem C5_failed_admission_keeps_head (env : Env) (s : State)
    (h : (start_next env s).1 = StartResult.spawnFailed) :
    (start_next env s).2.queue = s.queue ∧
    (start_next env s).2.next_instance_id = s.next_instance_id ∧
    (start_next env s).2 = s := by
  rcases start_next_cases env s with ⟨-, he⟩ | ⟨hst, -⟩
  · exact ⟨by rw [he], by rw [he], he⟩
  · rw [h] at hst; cases hst

/-- C5 witness: a concrete queued url whose admission fails because the
port probe reports the RTSP port occupied. -/
theorem C5_witness :
    (start_next envPortBusy sOneQueued).2.queue = sOneQueued.queue ∧
    (start_next envPortBusy sOneQueued).2.next_instance_id = sOneQueued.next_instance_id ∧
    (start_next envPortBusy sOneQueued).2 = sOneQueued :=
  C5_failed_admission_keeps_head envPortBusy sOneQueued (by decide)

/-- C6: after a successful `stop_instance(id)`, the id is absent from
the in-memory instance list and from the instances table, and a second
`stop_instance(id)` (under any OS behaviour) reports `NotFound`. -/
theorem C6_stop_removes_id_second_stop_not_found (env env2 : Env) (s : State)
    (instance_id : Nat)
    (h : (stop_instance env s instance_id).1 = StopResult.stopped) :
    (∀ i ∈ (stop_instance env s instance_id).2.instances, i.id ≠ instance_id) ∧
    (∀ r ∈ (stop_instance env s instance_id).2.db.instances, r.id ≠ instance_id) ∧
    (stop_instance env2 (stop_instance env s instance_id).2 instance_id).1
      = StopResult.notFound := by
  have he := stop_instance_stopped env s instance_id h
  rw [he]
  refine ⟨?_, ?_, ?_⟩
  · intro i hi
    have h2 := (List.mem_filter.mp hi).2
    simpa using h2
  · intro r hr
    have h2 := (List.mem_filter.mp hr).2
    simpa using h2
  · have hfind : (s.instances.filter (fun i => i.id != instance_id)).find?
        (fun i => i.id == instance_id) = none := by
      rw [List.find?_eq_none]
      intro x hx
      have h2 := (List.mem_filter.mp hx).2
      simpa using h2
    simp [stop_instance, hfind]

/-- C6 witness: stopping the only instance of a concrete reachable
state, then stopping the same id again. -/
theorem C6_witness :
    (∀ i ∈ (stop_instance envOk sOneLive 1).2.instances, i.id ≠ 1) ∧
    (∀ r ∈ (stop_instance envOk sOneLive 1).2.db.instances, r.id ≠ 1) ∧
    (stop_instance envOk (stop_instance envOk sOneLive 1).2 1).1
      = StopResult.notFound :=
  C6_stop_removes_id_second_stop_not_found envOk envOk sOneLive 1 (by decide)

/-- C7: one reconciliation pass on any reachable state removes, from
memory and from the instances table alike, exactly the records whose
backing process the liveness probe reports dead, and keeps every live
instance untouched (in order). -/
theorem C7_clean_removes_exactly_dead (st : Settings) (ops : List Op) (env : Env) :
    (clean_instances env (run st ops)).instances
      = (run st ops).instances.filter (fun i => env.alive i.pid) ∧
    (clean_instances env (run st ops)).db.instances
      = (run st ops).instances.filter (fun i => env.alive i.pid) := by
  obtain ⟨hnd, -, hsi, -, -, -⟩ := inv_run st ops
  exact ⟨clean_instances_filter env _ hnd, clean_instances_db_filter env _ hnd hsi⟩

/-- C8: admission is strictly FIFO.  (1) A successful `start_next`
admits exactly the queue head (the new instance carries the head's url
and the current id) and removes exactly that head from the queue.
(2) No operation reorders pending items: after any step the queue is
either a sublist of the old queue (the surviving items in their old
relative order, nothing inserted) or the old queue with exactly one new
item appended at the tail.  (3) Along every run the pending ids are
strictly increasing in queue order, and (4) consequently the head that
`start_next` attempts has a smaller id than every other pending item,
i.e. it is the earliest-enqueued pending item. -/
theorem C8_fifo_admission_no_reordering :
    (∀ (env : Env) (s : State) (item : QueueItem) (rest : List QueueItem),
      s.queue = item :: rest → (s.queue.map QueueItem.id).Nodup →
      (start_next env s).1 = StartResult.started →
      (start_next env s).2.queue = rest ∧
      ∃ inst, (start_next env s).2.instances = s.instances ++ [inst] ∧
        inst.url = item.url ∧ inst.id = s.next_instance_id) ∧
    (∀ (s : State) (op : Op),
      (step s op).queue.Sublist s.queue ∨
      ∃ item, (step s op).queue = s.queue ++ [item]) ∧
    (∀ (st : Settings) (ops : List Op),
      ((run st ops).queue.map QueueItem.id).Pairwise (· < ·)) ∧
    (∀ (st : Settings) (ops : List Op) (item : QueueItem) (rest : List QueueItem),
      (run st ops).queue = item :: rest → ∀ q ∈ rest, item.id < q.id) := by
  refine ⟨?_, ?_, run_queue_sorted, ?_⟩
  · intro env s item rest hq hnd hstart
    rcases start_next_cases env s with ⟨hna, -⟩ | ⟨-, item2, rest2, hq2, -, he⟩
    · exact absurd hstart hna
    · rw [hq] at hq2
      obtain ⟨rfl, rfl⟩ : item = item2 ∧ rest = rest2 := by
        injection hq2 with h1 h2; exact ⟨h1, h2⟩
      refine ⟨?_, mkInstance env s item.url s.next_instance_id, by rw [he], rfl, rfl⟩
      have hqueue : (start_next env s).2.queue
          = s.queue.filter (fun q => q.id != item.id) := by rw [he]
      rw [hqueue, hq, List.filter_cons]
      have hself : (item.id != item.id) = false := by simp
      rw [hself]
      simp only [Bool.false_eq_true, if_false]
      rw [List.filter_eq_self]
      intro q hq3
      rw [hq, List.map_cons, List.nodup_cons] at hnd
      have hne : q.id ≠ item.id :=
        fun hcon => hnd.1 (hcon ▸ List.mem_map_of_mem QueueItem.id hq3)
      simpa using hne
  · intro s op
    cases op with
    | enqueue url =>
      rcases add_to_queue_cases s url with he | he
      · left
        have hq : (add_to_queue s url).2.queue = s.queue := by rw [he]
        show (add_to_queue s url).2.queue.Sublist s.queue
        rw [hq]
      · right
        exact ⟨⟨(s.db.queue.map QueueItem.id).foldr max 0 + 1, url⟩,
          by show (add_to_queue s url).2.queue = _; rw [he]⟩
    | startNext env =>
      left
      rcases start_next_cases env s with ⟨-, he⟩ | ⟨-, item, rest, -, -, he⟩
      · have hq : (start_next env s).2.queue = s.queue := by rw [he]
        show (start_next env s).2.queue.Sublist s.queue
        rw [hq]
      · have hq : (start_next env s).2.queue
            = s.queue.filter (fun q => q.id != item.id) := by rw [he]
        show (start_next env s).2.queue.Sublist s.queue
        rw [hq]
        exact List.filter_sublist _
    | stop env instance_id =>
      left
      have hq : (stop_instance env s instance_id).2.queue = s.queue := by
        rcases stop_instance_cases env s instance_id with he | he <;> rw [he]
      show (stop_instance env s instance_id).2.queue.Sublist s.queue
      rw [hq]
    | clean env =>
      left
      show (clean_instances env s).queue.Sublist s.queue
      rw [clean_instances, (clean_aux_frame env s.instances s).1]
  · intro st ops item rest hq q hqr
    have h := run_queue_sorted st ops
    rw [hq, List.map_cons, List.pairwise_cons] at h
    exact h.1 q.id (List.mem_map_of_mem QueueItem.id hqr)

/-- C8 witness: admitting the single queued url of a concrete state
takes exactly that head and empties the queue, and in a concrete
two-item queue the head's id is below the id of the later-enqueued
item. -/
theorem C8_witness :
    ((start_next envOk sOneQueued).2.queue = [] ∧
      ∃ inst, (start_next envOk sOneQueued).2.instances = sOneQueued.instances ++ [inst] ∧
        inst.url = (⟨1, "http://a"⟩ : QueueItem).url ∧
        inst.id = sOneQueued.next_instance_id) ∧
    (⟨1, "http://a"⟩ : QueueItem).id < (⟨2, "http://b"⟩ : QueueItem).id :=
  ⟨C8_fifo_admission_no_reordering.1 envOk sOneQueued ⟨1, "http://a"⟩ []
      (by decide) (by decide) (by decide),
   C8_fifo_admission_no_reordering.2.2.2 st0 [.enqueue "http://a", .enqueue "http://b"]
      ⟨1, "http://a"⟩ [⟨2, "http://b"⟩] (by decide) ⟨2, "http://b"⟩ (by decide)⟩

/-- C9: `start_next` is the sole admission entry point: `add_to_queue`
never touches the instance set (in memory or in the store) and never
advances `next_instance_id`, and neither `stop_instance` nor
`clean_instances` ever adds an instance. -/
theorem C9_enqueue_frame_sole_admission :
    (∀ (s : State) (url : String),
      (add_to_queue s url).2.instances = s.instances ∧
      (add_to_queue s url).2.db.instances = s.db.instances ∧
      (add_to_queue s url).2.next_instance_id = s.next_instance_id) ∧
    (∀ (env : Env) (s : State) (instance_id : Nat),
      ∀ i ∈ (stop_instance env s instance_id).2.instances, i ∈ s.instances) ∧
    (∀ (env : Env) (s : State),
      ∀ i ∈ (clean_instances env s).instances, i ∈ s.instances) := by
  refine ⟨?_, ?_, ?_⟩
  · intro s url
    rcases add_to_queue_cases s url with he | he <;> rw [he] <;> exact ⟨rfl, rfl, rfl⟩
  · intro env s instance_id i hi
    rcases stop_instance_cases env s instance_id with he | he <;> rw [he] at hi
    · exact hi
    · exact List.mem_of_mem_filter hi
  · intro env s i hi
    rw [clean_instances, clean_aux_instances] at hi
    exact List.mem_of_mem_filter hi

/-- C9 witness: the frame conditions at a concrete state with one live
instance, and membership preservation for a concrete stop call. -/
theorem C9_witness :
    ((add_to_queue sOneLive "http://b").2.instances = sOneLive.instances ∧
      (add_to_queue sOneLive "http://b").2.db.instances = sOneLive.db.instances ∧
      (add_to_queue sOneLive "http://b").2.next_instance_id
        = sOneLive.next_instance_id) ∧
    instOne ∈ sOneLive.instances :=
  ⟨C9_enqueue_frame_sole_admission.1 sOneLive "http://b",
   C9_enqueue_frame_sole_admission.2.1 envOk sOneLive 5 instOne (by decide)⟩

/-- C10: `add_to_queue` accepts a url exactly when it starts with
"http://" or "https://", and a rejected url leaves the whole state (the
in-memory queue and the durable store included) unchanged. -/
theorem C10_url_validation_prefix_only (s : State) (url : String) :
    (add_to_queue s url).1 = (startswith url "http://" || startswith url "https://") ∧
    ((add_to_queue s url).1 = false → (add_to_queue s url).2 = s) := by
  cases hc : (startswith url "http://" || startswith url "https://") with
  | false =>
    constructor
    · simp [add_to_queue, hc]
    · intro _; simp [add_to_queue, hc]
  | true =>
    constructor
    · simp [add_to_queue, hc]
    · intro h; simp [add_to_queue, hc] at h

/-- C10 witness: a url without an accepted scheme prefix is rejected
and the state is untouched. -/
theorem C10_witness :
    (add_to_queue (initState st0) "notaurl").2 = initState st0 :=
  (C10_url_validation_prefix_only (initState st0) "notaurl").2 (by decide)

/-- Sanity check: starting the controller on an empty database with no
url arguments yields exactly the empty controller state the run
theorems start from. -/
lemma initController_empty_db (st : Settings) (env : Env) :
    initController st env ⟨[], []⟩ [] = initState st := rfl

end Taby
